import Mathlib

/-!
Verification of the concurrency bridge in the gochannels repository
(src/audio.go, src/endpoints.go): a shallow embedding in Lean 4 of the
sender, receiver and closer goroutines of runTranscribeStream, of the
reader and writer of StreamAudioEndpoint, and of the channel conduits
that connect them, with theorems settling the specification's claims.

Bytes are modelled as lists of naturals, errors as an inductive type
mirroring the fmt.Errorf wrappings in the source, channels as explicit
buffer lists plus a closed flag.
-/

namespace GoChannels

/-- Byte strings (Go []byte) as lists of naturals. -/
abbrev Bytes := List Nat

/-- chunkMs from src/audio.go line 60: pacing of audio chunks. -/
def chunkMs : Int := 100

/-- AudioChunk from src/audio.go lines 68-72. -/
structure AudioChunk where
  PCM : Bytes
  TsMs : Int
  Final : Bool
deriving Repr, DecidableEq

/-- TranscriptPiece from src/audio.go lines 74-77. -/
structure TranscriptPiece where
  Text : String
  IsPartialFlag : Bool
deriving Repr, DecidableEq

/-- Errors flowing through the bridge.  `sendAudio` mirrors
fmt.Errorf("send audio: %w", err) at src/audio.go line 164, `receive`
mirrors fmt.Errorf("receive: %w", err) at line 202. -/
inductive Err where
  | sendAudio (e : String)
  | receive (e : String)
deriving Repr, DecidableEq

/-- Result of one run of the sender goroutine (src/audio.go lines
149-173).  `sentPayloads` are the PCM payloads successfully delivered to
the remote session via stream.GetStream().Send, in order;
`streamCloses` counts the calls to stream.GetStream().Close() made by
the sender; `doneBuf` and `doneClosed` are the final state of the
sendDone conduit (buffered capacity 1, closed by the deferred close). -/
structure SenderResult where
  sentPayloads : List Bytes
  streamCloses : Nat
  doneBuf : List Err
  doneClosed : Bool
deriving Repr, DecidableEq

/-- The sender goroutine of runTranscribeStream (src/audio.go lines
149-173), as a function of the sequence of AudioChunk values it
receives from audioInputChannel before that channel is closed, and of a
schedule of outcomes for the successive Send calls (`none` = success,
`some e` = the Send call fails with base error e; an exhausted schedule
means every remaining Send succeeds).

Control flow mirrors the source: a chunk with Final=true closes the
remote stream and returns (the deferred close of sendDone fires); a
failed Send puts the wrapped error on sendDone and returns without
closing the stream; when the range ends because audioInputChannel was
closed, the stream is still closed (lines 169-172). -/
def runSender : List AudioChunk → List (Option String) → SenderResult
  | [], _ =>
    { sentPayloads := [], streamCloses := 1, doneBuf := [], doneClosed := true }
  | ch :: rest, fails =>
    if ch.Final then
      { sentPayloads := [], streamCloses := 1, doneBuf := [], doneClosed := true }
    else
      match fails with
      | some e :: _ =>
        { sentPayloads := [], streamCloses := 0, doneBuf := [Err.sendAudio e],
          doneClosed := true }
      | none :: fs =>
        let r := runSender rest fs
        { r with sentPayloads := ch.PCM :: r.sentPayloads }
      | [] =>
        let r := runSender rest []
        { r with sentPayloads := ch.PCM :: r.sentPayloads }

/-- One SDK Alternative: its Transcript field is a nullable string. -/
structure Alternative where
  Transcript : Option String
deriving Repr, DecidableEq

/-- One SDK Result: IsPartial flag plus its list of alternatives. -/
structure TResult where
  IsPartial : Bool
  Alternatives : List Alternative
deriving Repr, DecidableEq

/-- One SDK Transcript: a list of results. -/
structure Transcript where
  Results : List TResult
deriving Repr, DecidableEq

/-- One event from the remote session's event stream: either a
TranscriptResultStreamMemberTranscriptEvent whose Value.Transcript is
nullable, or an event of any other (unrecognized) kind, carried with a
tag standing for its dynamic type. -/
inductive RemoteEvent where
  | transcriptEvent (t : Option Transcript)
  | unknown (tag : String)
deriving Repr, DecidableEq

/-- The inner two loops of the receiver (src/audio.go lines 187-194)
applied to one result: one TranscriptPiece per alternative whose
Transcript is non-nil, carrying the result's IsPartial flag. -/
def piecesOfResult (res : TResult) : List TranscriptPiece :=
  res.Alternatives.filterMap fun alt =>
    alt.Transcript.map fun s => { Text := s, IsPartialFlag := res.IsPartial }

/-- The switch body of the receiver loop (src/audio.go lines 181-198)
applied to one event: a nil Transcript is skipped with continue,
unrecognized kinds fall to the default arm and are skipped. -/
def piecesOfEvent : RemoteEvent → List TranscriptPiece
  | RemoteEvent.transcriptEvent none => []
  | RemoteEvent.transcriptEvent (some t) =>
    (t.Results.map piecesOfResult).flatten
  | RemoteEvent.unknown _ => []

/-- Result of one run of the receiver goroutine (src/audio.go lines
177-206). `pieces` is the sequence of TranscriptPiece values it sends
to transcriptOutputChannel, in order; `doneBuf`/`doneClosed` the final
state of the recvDone conduit; `streamCloses` counts the calls to
stream close made by the receiver, of which its body contains none. -/
structure ReceiverResult where
  pieces : List TranscriptPiece
  doneBuf : List Err
  doneClosed : Bool
  streamCloses : Nat
deriving Repr, DecidableEq

/-- The range loop of the receiver goroutine, mirroring src/audio.go
lines 180-199: events are taken in order and each contributes its
pieces before the next is examined. -/
def recvLoop : List RemoteEvent → List TranscriptPiece
  | [] => []
  | ev :: rest => piecesOfEvent ev ++ recvLoop rest

/-- The receiver goroutine of runTranscribeStream (src/audio.go lines
177-206), as a function of the events delivered by the remote session's
event stream before it ends and of the terminal error reported by
stream.GetStream().Err() after the range ends.  On a terminal error the
wrapped error goes to recvDone before the deferred close; otherwise
recvDone is just closed.  The receiver never closes the remote
stream. -/
def runReceiver (events : List RemoteEvent) (streamErr : Option String) :
    ReceiverResult :=
  { pieces := recvLoop events
    doneBuf :=
      match streamErr with
      | some e => [Err.receive e]
      | none => []
    doneClosed := true
    streamCloses := 0 }

/-- The observable actions the closer goroutine (src/audio.go lines
211-231) can take on shared state, in order: publish an error on
errOutputChannel, close transcriptOutputChannel, close
errOutputChannel.  The vocabulary also includes closing the remote
stream so that theorems can state how often the closer does it. -/
inductive CloserAction where
  | publishErr (e : Err)
  | closeTranscript
  | closeErrChannel
  | closeStream
deriving Repr, DecidableEq

/-- Whether a closer action is the error publish. -/
def CloserAction.isPublish : CloserAction → Bool
  | CloserAction.publishErr _ => true
  | _ => false

/-- What a single receive from a buffered conduit that its producer has
already finished with observes: the buffered value if one is present,
otherwise (channel closed, buffer empty) the zero value nil. -/
def conduitRecv (buf : List Err) : Option Err := buf.head?

/-- The error the closer's select captures as firstErr (src/audio.go
lines 214-221): the value received from whichever of sendDone/recvDone
the select took, `pickSend` recording the scheduler's choice of a ready
case. -/
def firstSignalErr (sendBuf recvBuf : List Err) (pickSend : Bool) :
    Option Err :=
  if pickSend then conduitRecv sendBuf else conduitRecv recvBuf

/-- The closer goroutine of runTranscribeStream (src/audio.go lines
211-231) as the ordered list of actions it performs after its select
returns: a non-blocking publish of firstErr when it is non-nil (the
select with default at lines 223-226), then close(transcriptOutputChannel),
then close(errOutputChannel).  The body contains no close of the remote
stream. -/
def runCloser (sendBuf recvBuf : List Err) (pickSend : Bool) :
    List CloserAction :=
  (match firstSignalErr sendBuf recvBuf pickSend with
   | some e => [CloserAction.publishErr e]
   | none => []) ++
  [CloserAction.closeTranscript, CloserAction.closeErrChannel]

/-- Number of closes of the remote session stream performed across one
whole execution of the bridge: the sender's, the receiver's and the
closer's contributions.  The sender input, its Send outcome schedule,
the receiver's events and terminal stream error, and the closer's
select choice together determine an execution. -/
def execStreamCloses (input : List AudioChunk) (fails : List (Option String))
    (events : List RemoteEvent) (streamErr : Option String)
    (pickSend : Bool) : Nat :=
  let s := runSender input fails
  let r := runReceiver events streamErr
  s.streamCloses + r.streamCloses +
    (runCloser s.doneBuf r.doneBuf pickSend).count CloserAction.closeStream

/-- The four-tuple runTranscribeStream returns to its caller
(src/audio.go lines 116-141 and 238): on establishment failure line 128
returns nil, nil, nil, err before any channel is made or goroutine
started; on success the three channels are created with capacities 16,
32 and 1 and three goroutines are started.  A channel handle is
modelled by its buffer capacity, absent (nil) as `none`. -/
structure BridgeReturn where
  audioInChan : Option Nat
  transcriptOutChan : Option Nat
  errOutChan : Option Nat
  returnedErr : Option String
  goroutinesStarted : Nat
deriving Repr, DecidableEq

/-- The synchronous part of runTranscribeStream as a function of the
outcome of client.StartStreamTranscription (none = session established,
some e = establishment failed with error e). -/
def runTranscribeStreamReturn (startErr : Option String) : BridgeReturn :=
  match startErr with
  | some e =>
    { audioInChan := none, transcriptOutChan := none, errOutChan := none,
      returnedErr := some e, goroutinesStarted := 0 }
  | none =>
    { audioInChan := some 16, transcriptOutChan := some 32,
      errOutChan := some 1, returnedErr := none, goroutinesStarted := 3 }

/-- One frame read from the WebSocket connection: gorilla's
BinaryMessage and TextMessage kinds, plus any other message type
(ping/pong and the like), carried with its numeric type. -/
inductive WsFrame where
  | binary (data : Bytes)
  | text (data : String)
  | other (mt : Int)
deriving Repr, DecidableEq

/-- The reader goroutine of StreamAudioEndpoint (src/endpoints.go lines
76-113) as a function of the running timestamp, the frames successfully
read from the connection, and whether the read following the last frame
fails.  Returns the AudioChunk values sent to audioIn in order, paired
with whether the goroutine returned (instead of still blocking on
ReadMessage).

A binary frame yields one non-final chunk whose PCM is the copied
payload and advances tsMs by chunkMs; a text frame equal to "END" and a
read error each yield one final chunk and return; every other frame is
ignored.  Frames listed after an END are never read. -/
def readerLoop (tsMs : Int) :
    List WsFrame → Bool → List AudioChunk × Bool
  | [], readErr =>
    if readErr then
      ([{ PCM := [], TsMs := tsMs, Final := true }], true)
    else
      ([], false)
  | f :: rest, readErr =>
    match f with
    | WsFrame.binary data =>
      let payload := data.map id
      let r := readerLoop (tsMs + chunkMs) rest readErr
      ({ PCM := payload, TsMs := tsMs, Final := false } :: r.1, r.2)
    | WsFrame.text s =>
      if s = "END" then
        ([{ PCM := [], TsMs := tsMs, Final := true }], true)
      else
        readerLoop tsMs rest readErr
    | WsFrame.other _ => readerLoop tsMs rest readErr

/-- The reader goroutine from its start: tsMs begins at 0
(src/endpoints.go line 78). -/
def runReader (frames : List WsFrame) (readErr : Bool) :
    List AudioChunk × Bool :=
  readerLoop 0 frames readErr

/-- The payloads of the binary frames the reader actually reads: those
before the first "END" text frame. -/
def binariesBeforeEnd : List WsFrame → List Bytes
  | [] => []
  | WsFrame.binary d :: rest => d :: binariesBeforeEnd rest
  | WsFrame.text s :: rest =>
    if s = "END" then [] else binariesBeforeEnd rest
  | WsFrame.other _ :: rest => binariesBeforeEnd rest

/-- Whether the frame sequence contains an "END" text frame. -/
def hasEndFrame : List WsFrame → Bool
  | [] => false
  | WsFrame.binary _ :: rest => hasEndFrame rest
  | WsFrame.text s :: rest => s = "END" || hasEndFrame rest
  | WsFrame.other _ :: rest => hasEndFrame rest

/-- The text frame the writer loop builds for one TranscriptPiece,
mirroring fmt.Sprintf at src/endpoints.go line 125: the piece's Text is
interpolated verbatim with %s, the flag with %t. -/
def jsonMsgFor (piece : TranscriptPiece) : String :=
  "\x7b\"text\":\"" ++ piece.Text ++ "\",\"partial\":" ++
    (if piece.IsPartialFlag then "true" else "false") ++ "\x7d"

/-- Scan a serialized JSON string body up to its closing unescaped
quote, decoding the two escapes \" and \\ that a string-typed field
value may carry; returns the decoded content and the characters after
the closing quote, or none when the body is malformed (an unterminated
string or an escape other than those two). -/
def scanJsonString : List Char → Option (List Char × List Char)
  | [] => none
  | c :: rest =>
    if c = '"' then
      some ([], rest)
    else if c = '\\' then
      match rest with
      | [] => none
      | e :: rest2 =>
        if e = '"' ∨ e = '\\' then
          match scanJsonString rest2 with
          | some (body, tail) => some (e :: body, tail)
          | none => none
        else
          none
    else
      match scanJsonString rest with
      | some (body, tail) => some (c :: body, tail)
      | none => none

/-- Strip an expected exact prefix from a character list. -/
def stripExpected : List Char → List Char → Option (List Char)
  | [], rest => some rest
  | _, [] => none
  | p :: ps, c :: cs => if p = c then stripExpected ps cs else none

/-- Parse a frame that claims to be the serialization of an object with
exactly the two fields text (a JSON string) and partial (a JSON
boolean), in the format the writer emits; returns the decoded field
values when the frame is exactly such a serialization and nothing
else. -/
def parseFrame (s : String) : Option (String × Bool) :=
  match stripExpected ("\x7b\"text\":\"".toList) s.toList with
  | none => none
  | some rest =>
    match scanJsonString rest with
    | none => none
    | some (body, tail) =>
      match stripExpected (",\"partial\":".toList) tail with
      | none => none
      | some tail2 =>
        match stripExpected ("true\x7d".toList) tail2 with
        | some [] => some (String.mk body, true)
        | _ =>
          match stripExpected ("false\x7d".toList) tail2 with
          | some [] => some (String.mk body, false)
          | _ => none

/-- A character a JSON string may carry verbatim without escaping
ambiguity in the writer's format: not a double quote and not a
backslash. -/
def plainJsonChar (c : Char) : Bool :=
  c != '"' && c != '\\'

/-- Program counter of the sender goroutine in the interleaved model. -/
inductive SenderPC where
  | sloop
  | sdone
deriving Repr, DecidableEq

/-- Program counter of the receiver goroutine in the interleaved model:
looping over events, in the middle of sending the pieces of one event,
or finished. -/
inductive ReceiverPC where
  | rloop
  | rsend (pending : List TranscriptPiece)
  | rdone
deriving Repr, DecidableEq

/-- Program counter of the closer goroutine in the interleaved model:
blocked in the select, after the select holding firstErr, about to close
transcriptOutputChannel, about to close errOutputChannel, finished. -/
inductive CloserPC where
  | cselect
  | cafter (firstErr : Option Err)
  | ccloseT
  | ccloseE
  | cdone
deriving Repr, DecidableEq

/-- Global state of the interleaved execution of the three goroutines of
runTranscribeStream together with the channels that connect them.  An
attempted send on a channel already closed sets `panicked` (in Go this
is a runtime panic). -/
structure Sys where
  sPC : SenderPC
  rPC : ReceiverPC
  cPC : CloserPC
  audioInBuf : List AudioChunk
  audioInClosed : Bool
  sendFails : List (Option String)
  events : List RemoteEvent
  eventsClosed : Bool
  streamErr : Option String
  transcriptBuf : List TranscriptPiece
  transcriptClosed : Bool
  errBuf : List Err
  errClosed : Bool
  sendDoneBuf : List Err
  sendDoneClosed : Bool
  recvDoneBuf : List Err
  recvDoneClosed : Bool
  streamCloseCount : Nat
  panicked : Bool
deriving Repr, DecidableEq

/-- Scheduler choices: run one enabled step of a goroutine.  The two
closerPick actions resolve the closer's two-way select toward the
sendDone or the recvDone case, enabled only when that case is ready;
streamEnds is the environment ending the remote event stream (the SDK
closes the events channel, e.g. after the stream was closed). -/
inductive Tid where
  | sender
  | receiver
  | closerPickSend
  | closerPickRecv
  | closer
  | streamEnds
deriving Repr, DecidableEq

/-- One small step of the interleaved system, faithful to src/audio.go:
the sender consumes audioInBuf (Final closes the stream and ends with a
clean sendDone signal, a failed Send ends with an error signal and no
stream close, a closed empty audioIn closes the stream); the receiver
consumes events, sending each event's pieces one by one to
transcriptOutputChannel — a send on the closed channel panics, a send
on a full buffer (capacity 32) blocks; the closer, after its select,
publishes a non-nil firstErr into errOutputChannel if there is room,
then closes transcriptOutputChannel, then errOutputChannel.  A step of
a goroutine that is blocked or finished leaves the state unchanged. -/
def step (s : Sys) : Tid → Sys
  | Tid.sender =>
    match s.sPC with
    | SenderPC.sdone => s
    | SenderPC.sloop =>
      match s.audioInBuf with
      | ch :: rest =>
        if ch.Final then
          { s with sPC := SenderPC.sdone, audioInBuf := rest,
                   streamCloseCount := s.streamCloseCount + 1,
                   sendDoneClosed := true }
        else
          match s.sendFails with
          | some e :: _ =>
            { s with sPC := SenderPC.sdone, audioInBuf := rest,
                     sendDoneBuf := s.sendDoneBuf ++ [Err.sendAudio e],
                     sendDoneClosed := true }
          | none :: fs =>
            { s with audioInBuf := rest, sendFails := fs }
          | [] =>
            { s with audioInBuf := rest }
      | [] =>
        if s.audioInClosed then
          { s with sPC := SenderPC.sdone,
                   streamCloseCount := s.streamCloseCount + 1,
                   sendDoneClosed := true }
        else s
  | Tid.receiver =>
    match s.rPC with
    | ReceiverPC.rdone => s
    | ReceiverPC.rloop =>
      match s.events with
      | ev :: rest =>
        match piecesOfEvent ev with
        | [] => { s with events := rest }
        | ps => { s with events := rest, rPC := ReceiverPC.rsend ps }
      | [] =>
        if s.eventsClosed then
          { s with rPC := ReceiverPC.rdone,
                   recvDoneBuf := s.recvDoneBuf ++
                     (match s.streamErr with
                      | some e => [Err.receive e]
                      | none => []),
                   recvDoneClosed := true }
        else s
    | ReceiverPC.rsend pending =>
      match pending with
      | [] => { s with rPC := ReceiverPC.rloop }
      | p :: ps =>
        if s.transcriptClosed then
          { s with panicked := true, rPC := ReceiverPC.rdone }
        else if s.transcriptBuf.length < 32 then
          { s with transcriptBuf := s.transcriptBuf ++ [p],
                   rPC := ReceiverPC.rsend ps }
        else s
  | Tid.closerPickSend =>
    match s.cPC with
    | CloserPC.cselect =>
      if s.sendDoneBuf ≠ [] ∨ s.sendDoneClosed then
        { s with cPC := CloserPC.cafter s.sendDoneBuf.head?,
                 sendDoneBuf := s.sendDoneBuf.tail }
      else s
    | _ => s
  | Tid.closerPickRecv =>
    match s.cPC with
    | CloserPC.cselect =>
      if s.recvDoneBuf ≠ [] ∨ s.recvDoneClosed then
        { s with cPC := CloserPC.cafter s.recvDoneBuf.head?,
                 recvDoneBuf := s.recvDoneBuf.tail }
      else s
    | _ => s
  | Tid.closer =>
    match s.cPC with
    | CloserPC.cafter firstErr =>
      match firstErr with
      | some e =>
        if s.errBuf.length < 1 then
          { s with errBuf := s.errBuf ++ [e], cPC := CloserPC.ccloseT }
        else
          { s with cPC := CloserPC.ccloseT }
      | none => { s with cPC := CloserPC.ccloseT }
    | CloserPC.ccloseT =>
      { s with transcriptClosed := true, cPC := CloserPC.ccloseE }
    | CloserPC.ccloseE =>
      { s with errClosed := true, cPC := CloserPC.cdone }
    | _ => s
  | Tid.streamEnds =>
    { s with eventsClosed := true }

/-- Initial state of one bridge execution: the caller's chunks already
queued on audioIn (and whether the caller then closed it), the Send
outcome schedule, the remote events still to be delivered, and the
terminal stream error the receiver will observe. -/
def initSys (input : List AudioChunk) (inputClosed : Bool)
    (fails : List (Option String)) (events : List RemoteEvent)
    (streamErr : Option String) : Sys :=
  { sPC := SenderPC.sloop, rPC := ReceiverPC.rloop, cPC := CloserPC.cselect,
    audioInBuf := input, audioInClosed := inputClosed, sendFails := fails,
    events := events, eventsClosed := false, streamErr := streamErr,
    transcriptBuf := [], transcriptClosed := false,
    errBuf := [], errClosed := false,
    sendDoneBuf := [], sendDoneClosed := false,
    recvDoneBuf := [], recvDoneClosed := false,
    streamCloseCount := 0, panicked := false }

/-- Run the interleaved system under a scheduler choice sequence. -/
def runSystem (s0 : Sys) (sched : List Tid) : Sys :=
  sched.foldl step s0

/-- What one receive on a conduit its producer is done with yields: a
buffered error, a clean nil signal once the conduit is closed, or (when
the producer neither sent nor closed) nothing yet. -/
def conduitSignal (buf : List Err) (closed : Bool) : Option (Option Err) :=
  match buf with
  | e :: _ => some (some e)
  | [] => if closed then some none else none

theorem runSender_streamCloses_le (input : List AudioChunk)
    (fails : List (Option String)) :
    (runSender input fails).streamCloses ≤ 1 := by
  induction input generalizing fails with
  | nil => simp [runSender]
  | cons ch rest ih =>
    by_cases hf : ch.Final
    · simp [runSender, hf]
    · match fails with
      | some e :: _ => simp [runSender, hf]
      | none :: fs => simpa [runSender, hf] using ih fs
      | [] => simpa [runSender, hf] using ih []

theorem runSender_doneClosed (input : List AudioChunk)
    (fails : List (Option String)) :
    (runSender input fails).doneClosed = true := by
  induction input generalizing fails with
  | nil => simp [runSender]
  | cons ch rest ih =>
    by_cases hf : ch.Final
    · simp [runSender, hf]
    · match fails with
      | some e :: _ => simp [runSender, hf]
      | none :: fs => simpa [runSender, hf] using ih fs
      | [] => simpa [runSender, hf] using ih []

theorem runSender_doneBuf_le (input : List AudioChunk)
    (fails : List (Option String)) :
    (runSender input fails).doneBuf.length ≤ 1 := by
  induction input generalizing fails with
  | nil => simp [runSender]
  | cons ch rest ih =>
    by_cases hf : ch.Final
    · simp [runSender, hf]
    · match fails with
      | some e :: _ => simp [runSender, hf]
      | none :: fs => simpa [runSender, hf] using ih fs
      | [] => simpa [runSender, hf] using ih []

theorem runSender_clean_closes (input : List AudioChunk)
    (fails : List (Option String))
    (h : (runSender input fails).doneBuf = []) :
    (runSender input fails).streamCloses = 1 := by
  induction input generalizing fails with
  | nil => simp [runSender]
  | cons ch rest ih =>
    by_cases hf : ch.Final
    · simp [runSender, hf]
    · match fails with
      | some e :: _ => simp [runSender, hf] at h
      | none :: fs =>
        simp only [runSender, hf] at h ⊢
        simpa using ih fs (by simpa using h)
      | [] =>
        simp only [runSender, hf] at h ⊢
        simpa using ih [] (by simpa using h)

theorem runSender_all_ok (cs : List AudioChunk) (t : AudioChunk)
    (fails : List (Option String))
    (hcs : ∀ c ∈ cs, c.Final = false) (ht : t.Final = true)
    (hok : ∀ o ∈ fails, o = none) :
    runSender (cs ++ [t]) fails =
      { sentPayloads := cs.map (fun c => c.PCM), streamCloses := 1,
        doneBuf := [], doneClosed := true } := by
  induction cs generalizing fails with
  | nil => simp [runSender, ht]
  | cons c rest ih =>
    have hc : c.Final = false := hcs c (by simp)
    have hrest : ∀ x ∈ rest, x.Final = false := fun x hx => hcs x (by simp [hx])
    match fails with
    | some e :: _ =>
      exact absurd (hok (some e) (by simp)) (by simp)
    | none :: fs =>
      have := ih fs hrest (fun o ho => hok o (by simp [ho]))
      simp [runSender, hc, this]
    | [] =>
      have := ih [] hrest (by simp)
      simp [runSender, hc, this]

theorem runCloser_count_closeStream (sendBuf recvBuf : List Err)
    (pickSend : Bool) :
    (runCloser sendBuf recvBuf pickSend).count CloserAction.closeStream = 0 := by
  cases h : firstSignalErr sendBuf recvBuf pickSend <;>
    simp [runCloser, h, List.count_cons]

/-- C3. For every sequence of N non-terminal audio units followed by
one terminal unit, the uplink forwarder (sender goroutine, src/audio.go
lines 149-173) delivers exactly the N payloads to the remote session in
submission order and then closes the remote session exactly once when
every Send succeeds; and on every Send-outcome schedule, including
failing ones, it closes the remote session at most once. -/
theorem uplink_delivers_in_order_then_closes_once (cs : List AudioChunk)
    (t : AudioChunk) (fails : List (Option String))
    (hcs : ∀ c ∈ cs, c.Final = false) (ht : t.Final = true) :
    ((∀ o ∈ fails, o = none) →
      (runSender (cs ++ [t]) fails).sentPayloads = cs.map (fun c => c.PCM) ∧
      (runSender (cs ++ [t]) fails).streamCloses = 1) ∧
    (runSender (cs ++ [t]) fails).streamCloses ≤ 1 := by
  refine ⟨fun hok => ?_, runSender_streamCloses_le _ _⟩
  rw [runSender_all_ok cs t fails hcs ht hok]
  exact ⟨rfl, rfl⟩

/-- Witness for C3 at a concrete input: two non-terminal chunks, one
terminal chunk, no induced failures. -/
theorem uplink_delivers_in_order_then_closes_once_witness :
    (runSender
      [{ PCM := [1], TsMs := 0, Final := false },
       { PCM := [2], TsMs := 100, Final := false },
       { PCM := [], TsMs := 200, Final := true }] []).sentPayloads =
        [[1], [2]] ∧
    (runSender
      [{ PCM := [1], TsMs := 0, Final := false },
       { PCM := [2], TsMs := 100, Final := false },
       { PCM := [], TsMs := 200, Final := true }] []).streamCloses = 1 := by
  have h := uplink_delivers_in_order_then_closes_once
    [{ PCM := [1], TsMs := 0, Final := false },
     { PCM := [2], TsMs := 100, Final := false }]
    { PCM := [], TsMs := 200, Final := true } [] (by decide) (by decide)
  exact h.1 (by decide)

/-- C4. Both the uplink forwarder and the downlink collector emit
exactly one termination signal on their conduit on every exit path,
including when audioInputChannel is closed without a terminal chunk
(the input list here already ranges over all such executions): each
conduit ends closed with at most one buffered value — at most the
capacity 1, so the one send never blocks — and a receive on it observes
exactly one signal. -/
theorem termination_signal_exactly_once (input : List AudioChunk)
    (fails : List (Option String)) (events : List RemoteEvent)
    (streamErr : Option String) :
    ((runSender input fails).doneClosed = true ∧
      (runSender input fails).doneBuf.length ≤ 1 ∧
      (conduitSignal (runSender input fails).doneBuf
        (runSender input fails).doneClosed).isSome = true) ∧
    ((runReceiver events streamErr).doneClosed = true ∧
      (runReceiver events streamErr).doneBuf.length ≤ 1 ∧
      (conduitSignal (runReceiver events streamErr).doneBuf
        (runReceiver events streamErr).doneClosed).isSome = true) := by
  refine ⟨⟨runSender_doneClosed _ _, runSender_doneBuf_le _ _, ?_⟩,
          ⟨rfl, ?_, ?_⟩⟩
  · rw [runSender_doneClosed]
    cases h : (runSender input fails).doneBuf <;> simp [conduitSignal]
  · cases streamErr <;> simp [runReceiver]
  · cases streamErr <;> simp [runReceiver, conduitSignal]

/-- Counterexample to C1 as stated: in the execution where the caller
submits one non-terminal chunk and the Send of its payload fails, the
sender returns without closing the remote session (src/audio.go lines
162-166 have no Close call), and neither the receiver nor the closer
ever closes it, so the total number of close calls is 0, not at least
1. -/
theorem session_close_skipped_on_send_failure :
    execStreamCloses [{ PCM := [0], TsMs := 0, Final := false }]
      [some "boom"] [] none true = 0 := by
  decide

/-- C1 amended: across every execution of the bridge the remote session
close is invoked at most once (never more than once), and on every exit
path on which the uplink's termination signal is clean — terminal chunk
received, or inbound channel closed without one — it is invoked exactly
once; on the send-failure path no task closes the remote session. -/
theorem session_close_at_most_once (input : List AudioChunk)
    (fails : List (Option String)) (events : List RemoteEvent)
    (streamErr : Option String) (pickSend : Bool) :
    execStreamCloses input fails events streamErr pickSend ≤ 1 ∧
    ((runSender input fails).doneBuf = [] →
      execStreamCloses input fails events streamErr pickSend = 1) := by
  unfold execStreamCloses
  simp only [runReceiver, runCloser_count_closeStream]
  constructor
  · simpa using runSender_streamCloses_le input fails
  · intro h
    simpa using runSender_clean_closes input fails h

/-- Witness for C1's amended theorem at a concrete input: one terminal
chunk, clean uplink signal, exactly one close. -/
theorem session_close_at_most_once_witness :
    execStreamCloses [{ PCM := [], TsMs := 0, Final := true }] [] [] none
      true ≤ 1 ∧
    execStreamCloses [{ PCM := [], TsMs := 0, Final := true }] [] [] none
      true = 1 := by
  have h := session_close_at_most_once
    [{ PCM := [], TsMs := 0, Final := true }] [] [] none true
  exact ⟨h.1, h.2 (by decide)⟩

/-- C5. The completion coordinator (closer goroutine, src/audio.go
lines 211-231) closes the transcript channel exactly once and the error
channel exactly once, unconditionally and in that order, and any
publish of the authoritative error comes strictly before both closes:
after dropping the (at most one) leading publish action its trace is
exactly the close of transcriptOutputChannel followed by the close of
errOutputChannel. -/
theorem closer_closes_in_order_after_publish (sendBuf recvBuf : List Err)
    (pickSend : Bool) :
    (runCloser sendBuf recvBuf pickSend).dropWhile CloserAction.isPublish =
      [CloserAction.closeTranscript, CloserAction.closeErrChannel] ∧
    (runCloser sendBuf recvBuf pickSend).count
      CloserAction.closeTranscript = 1 ∧
    (runCloser sendBuf recvBuf pickSend).count
      CloserAction.closeErrChannel = 1 ∧
    ((runCloser sendBuf recvBuf pickSend).takeWhile
      CloserAction.isPublish).length ≤ 1 := by
  cases h : firstSignalErr sendBuf recvBuf pickSend <;>
    simp [runCloser, h, CloserAction.isPublish, List.count_cons,
      List.dropWhile, List.takeWhile]

/-- C6. At most one error value is ever delivered on the error channel
(only the closer sends on errOutputChannel, and it publishes at most
once, within the channel's capacity 1, so the select-with-default never
blocks); what is published is exactly the error carried by whichever
termination signal the select took first, and when that first signal is
clean nothing is published no matter what the other conduit carries. -/
theorem first_error_only_published (sendBuf recvBuf : List Err)
    (pickSend : Bool) :
    ((runCloser sendBuf recvBuf pickSend).filter
      CloserAction.isPublish).length ≤ 1 ∧
    (firstSignalErr sendBuf recvBuf pickSend = none →
      (runCloser sendBuf recvBuf pickSend).filter
        CloserAction.isPublish = []) ∧
    (∀ e, firstSignalErr sendBuf recvBuf pickSend = some e →
      (runCloser sendBuf recvBuf pickSend).filter
        CloserAction.isPublish = [CloserAction.publishErr e]) := by
  refine ⟨?_, fun h0 => ?_, fun e he => ?_⟩
  · cases h : firstSignalErr sendBuf recvBuf pickSend <;>
      simp [runCloser, h, CloserAction.isPublish]
  · simp [runCloser, h0, CloserAction.isPublish]
  · simp [runCloser, he, CloserAction.isPublish]

/-- Witness for C6 at a concrete input: the select takes the sendDone
case, whose conduit is closed with no error, while recvDone carries a
receive error; nothing is published. -/
theorem first_error_only_published_witness :
    ((runCloser [] [Err.receive "late"] true).filter
      CloserAction.isPublish) = [] := by
  exact (first_error_only_published [] [Err.receive "late"] true).2.1 rfl

/-- C10. When establishing the remote session fails, runTranscribeStream
returns the error synchronously with all three channel handles nil,
creating no channel and starting no goroutine (src/audio.go lines
126-129 return before lines 134-231 run). -/
theorem establishment_failure_is_synchronous (e : String) :
    runTranscribeStreamReturn (some e) =
      { audioInChan := none, transcriptOutChan := none, errOutChan := none,
        returnedErr := some e, goroutinesStarted := 0 } := by
  rfl

/-- C2 fails on the code: the concrete interleaving below — the sender
receives the terminal chunk and finishes, the closer's select takes
sendDone and the closer closes transcriptOutputChannel, and only then
does the receiver process a transcript event that was already pending —
drives the receiver into a send on the closed transcript channel, a Go
runtime panic (src/audio.go line 191 racing with line 229). -/
theorem receiver_sends_after_close :
    (runSystem
      (initSys [{ PCM := [], TsMs := 0, Final := true }] false []
        [RemoteEvent.transcriptEvent (some { Results :=
          [{ IsPartial := true,
             Alternatives := [{ Transcript := some "hello" }] }] })]
        none)
      [Tid.sender, Tid.closerPickSend, Tid.closer, Tid.closer, Tid.closer,
       Tid.receiver, Tid.receiver]).panicked = true := by
  rfl

/-- The fragments the specification expects from one result: per
non-null alternative, its text paired with the result's partial/final
flag. -/
def fragmentsOfResult (res : TResult) : List (String × Bool) :=
  res.Alternatives.filterMap fun alt =>
    alt.Transcript.map fun s => (s, res.IsPartial)

/-- The fragments the specification expects from one event: every
recognizable transcript event contributes the fragments of its results
in order; an event of any other kind contributes nothing. -/
def fragmentsOfEvents : List RemoteEvent → List (String × Bool)
  | [] => []
  | RemoteEvent.transcriptEvent (some t) :: rest =>
    (t.Results.map fragmentsOfResult).flatten ++ fragmentsOfEvents rest
  | _ :: rest => fragmentsOfEvents rest

theorem piecesOfEvent_fragments (ev : RemoteEvent) :
    (piecesOfEvent ev).map (fun p => (p.Text, p.IsPartialFlag)) =
      fragmentsOfEvents [ev] := by
  cases ev with
  | transcriptEvent t =>
    cases t with
    | none => simp [piecesOfEvent, fragmentsOfEvents]
    | some tr =>
      simp only [piecesOfEvent, fragmentsOfEvents, List.append_nil]
      rw [List.map_flatten]
      congr 1
      rw [List.map_map]
      refine List.map_congr_left fun res _ => ?_
      simp [piecesOfResult, fragmentsOfResult, List.map_filterMap,
        Option.map_map, Function.comp_def]
  | unknown tag => simp [piecesOfEvent, fragmentsOfEvents]

/-- C7. For every sequence of remote events, the downlink collector
(receiver goroutine, src/audio.go lines 177-206) publishes exactly one
TranscriptPiece per non-null alternative fragment of the recognizable
transcript events, in emission order, each carrying its fragment's text
and its originating result's partial/final flag — so exactly K pieces
when the events carry K fragments — and unrecognized events produce
neither a piece nor an error: the collector's error signal depends only
on the stream's terminal error. -/
theorem downlink_republishes_fragments (events : List RemoteEvent)
    (streamErr : Option String) :
    (runReceiver events streamErr).pieces.map
      (fun p => (p.Text, p.IsPartialFlag)) = fragmentsOfEvents events ∧
    (runReceiver events streamErr).pieces.length =
      (fragmentsOfEvents events).length ∧
    (runReceiver events streamErr).doneBuf.length =
      (if streamErr.isSome then 1 else 0) := by
  have hmap : ∀ evs : List RemoteEvent,
      (recvLoop evs).map (fun p => (p.Text, p.IsPartialFlag)) =
        fragmentsOfEvents evs := by
    intro evs
    induction evs with
    | nil => simp [recvLoop, fragmentsOfEvents]
    | cons ev rest ih =>
      have h1 := piecesOfEvent_fragments ev
      cases ev with
      | transcriptEvent t =>
        cases t with
        | none =>
          simpa [recvLoop, fragmentsOfEvents, piecesOfEvent] using ih
        | some tr =>
          simp only [recvLoop, List.map_append, ih, fragmentsOfEvents]
          simp only [fragmentsOfEvents, List.append_nil] at h1
          rw [h1]
      | unknown tag =>
        simpa [recvLoop, fragmentsOfEvents, piecesOfEvent] using ih
  refine ⟨hmap events, ?_, ?_⟩
  · have := congrArg List.length (hmap events)
    simpa [runReceiver] using this
  · cases streamErr <;> simp [runReceiver]

theorem readerLoop_payloads (frames : List WsFrame) (readErr : Bool) :
    ∀ t : Int,
      ((readerLoop t frames readErr).1.filter
        (fun u => !u.Final)).map (fun u => u.PCM) =
        binariesBeforeEnd frames := by
  induction frames with
  | nil =>
    intro t
    cases readErr <;> simp [readerLoop, binariesBeforeEnd]
  | cons f rest ih =>
    intro t
    cases f with
    | binary d => simp [readerLoop, binariesBeforeEnd, ih]
    | text s =>
      by_cases hs : s = "END" <;>
        simp [readerLoop, binariesBeforeEnd, hs, ih]
    | other mt => simp [readerLoop, binariesBeforeEnd, ih]

theorem readerLoop_tsMs_lb (frames : List WsFrame) (readErr : Bool) :
    ∀ t : Int, ∀ u ∈ (readerLoop t frames readErr).1, t ≤ u.TsMs := by
  induction frames with
  | nil =>
    intro t u hu
    cases readErr <;> simp [readerLoop] at hu
    · subst hu; exact le_refl t
  | cons f rest ih =>
    intro t u hu
    cases f with
    | binary d =>
      simp only [readerLoop] at hu
      rcases List.mem_cons.mp hu with h | h
      · subst h; exact le_refl t
      · have := ih (t + chunkMs) u h
        have hpos : (0 : Int) < chunkMs := by decide
        omega
    | text s =>
      by_cases hs : s = "END"
      · simp [readerLoop, hs] at hu
        subst hu; exact le_refl t
      · simp only [readerLoop, if_neg hs] at hu
        exact ih t u hu
    | other mt =>
      simp only [readerLoop] at hu
      exact ih t u hu

theorem readerLoop_chain (frames : List WsFrame) (readErr : Bool) :
    ∀ t : Int,
      List.Chain' (fun a b => a.TsMs < b.TsMs)
        (readerLoop t frames readErr).1 := by
  induction frames with
  | nil =>
    intro t
    cases readErr <;> simp [readerLoop]
  | cons f rest ih =>
    intro t
    cases f with
    | binary d =>
      simp only [readerLoop]
      rw [List.chain'_cons']
      refine ⟨fun y hy => ?_, ih (t + chunkMs)⟩
      have hmem : y ∈ (readerLoop (t + chunkMs) rest readErr).1 :=
        List.mem_of_mem_head? hy
      have := readerLoop_tsMs_lb rest readErr (t + chunkMs) y hmem
      have hpos : (0 : Int) < chunkMs := by decide
      simp only []
      omega
    | text s =>
      by_cases hs : s = "END"
      · simp [readerLoop, hs]
      · simp only [readerLoop, if_neg hs]
        exact ih t
    | other mt =>
      simp only [readerLoop]
      exact ih t

theorem readerLoop_final_count (frames : List WsFrame) (readErr : Bool) :
    ∀ t : Int,
      ((readerLoop t frames readErr).1.filter
        (fun u => u.Final)).length =
        (if hasEndFrame frames || readErr then 1 else 0) := by
  induction frames with
  | nil =>
    intro t
    cases readErr <;> simp [readerLoop, hasEndFrame]
  | cons f rest ih =>
    intro t
    cases f with
    | binary d => simp [readerLoop, hasEndFrame, ih]
    | text s =>
      by_cases hs : s = "END" <;>
        simp [readerLoop, hasEndFrame, hs, ih]
    | other mt => simp [readerLoop, hasEndFrame, ih]

theorem readerLoop_final_last (frames : List WsFrame) (readErr : Bool) :
    ∀ t : Int,
      ((readerLoop t frames readErr).1.takeWhile
          (fun u => !u.Final)).length +
        (if hasEndFrame frames || readErr then 1 else 0) =
        (readerLoop t frames readErr).1.length := by
  induction frames with
  | nil =>
    intro t
    cases readErr <;> simp [readerLoop, hasEndFrame, List.takeWhile]
  | cons f rest ih =>
    intro t
    cases f with
    | binary d =>
      have h := ih (t + chunkMs)
      simp only [readerLoop, hasEndFrame]
      simp [List.takeWhile_cons] at h ⊢
      omega
    | text s =>
      by_cases hs : s = "END"
      · simp [readerLoop, hasEndFrame, hs, List.takeWhile_cons]
      · simpa [readerLoop, hasEndFrame, hs] using ih t
    | other mt => simpa [readerLoop, hasEndFrame] using ih t

theorem readerLoop_exits (frames : List WsFrame) (readErr : Bool) :
    ∀ t : Int,
      (readerLoop t frames readErr).2 = (hasEndFrame frames || readErr) := by
  induction frames with
  | nil =>
    intro t
    cases readErr <;> simp [readerLoop, hasEndFrame]
  | cons f rest ih =>
    intro t
    cases f with
    | binary d => simp [readerLoop, hasEndFrame, ih]
    | text s =>
      by_cases hs : s = "END" <;>
        simp [readerLoop, hasEndFrame, hs, ih]
    | other mt => simp [readerLoop, hasEndFrame, ih]

/-- C8. The reader task of StreamAudioEndpoint (src/endpoints.go lines
76-113): across every frame sequence (with or without a trailing read
error), the non-terminal units it submits carry, in order, exactly the
payload bytes of the binary frames read before the first "END" text
frame; the logical timestamps of all submitted units are strictly
increasing; exactly one terminal unit is produced — precisely when an
"END" text frame or a read error occurs — and it is the last unit, after
which the task exits; every other frame kind produces no unit. -/
theorem reader_units_faithful (frames : List WsFrame) (readErr : Bool) :
    ((runReader frames readErr).1.filter
      (fun u => !u.Final)).map (fun u => u.PCM) =
        binariesBeforeEnd frames ∧
    List.Chain' (fun a b => a.TsMs < b.TsMs) (runReader frames readErr).1 ∧
    ((runReader frames readErr).1.filter (fun u => u.Final)).length =
      (if hasEndFrame frames || readErr then 1 else 0) ∧
    ((runReader frames readErr).1.takeWhile
        (fun u => !u.Final)).length +
      (if hasEndFrame frames || readErr then 1 else 0) =
      (runReader frames readErr).1.length ∧
    (runReader frames readErr).2 = (hasEndFrame frames || readErr) :=
  ⟨readerLoop_payloads frames readErr 0,
   readerLoop_chain frames readErr 0,
   readerLoop_final_count frames readErr 0,
   readerLoop_final_last frames readErr 0,
   readerLoop_exits frames readErr 0⟩

theorem stripExpected_self (p r : List Char) :
    stripExpected p (p ++ r) = some r := by
  induction p with
  | nil => simp [stripExpected]
  | cons c cs ih => simp [stripExpected, ih]

theorem scanJsonString_plain (l tail : List Char)
    (h : l.all plainJsonChar = true) :
    scanJsonString (l ++ '"' :: tail) = some (l, tail) := by
  induction l with
  | nil =>
    rw [List.nil_append, scanJsonString.eq_def]
    simp
  | cons c cs ih =>
    simp only [List.all_cons, Bool.and_eq_true] at h
    have hc : c ≠ '"' ∧ c ≠ '\\' := by
      have := h.1
      simpa [plainJsonChar] using this
    rw [List.cons_append, scanJsonString.eq_def]
    simp [hc.1, hc.2, ih h.2]

/-- C9 amended: for every TranscriptPiece whose text contains no double
quote and no backslash, the text frame the writer builds (src/endpoints.go
line 125) is the serialization of an object with exactly the two fields
text and partial holding the piece's text and flag: the parser of that
exact two-field format recovers both.  (For other texts the unescaped
%s interpolation breaks the format — see the counterexample.) -/
theorem writer_frame_round_trips (piece : TranscriptPiece)
    (h : piece.Text.toList.all plainJsonChar = true) :
    parseFrame (jsonMsgFor piece) = some (piece.Text, piece.IsPartialFlag) := by
  obtain ⟨T, flag⟩ := piece
  have h' : T.toList.all plainJsonChar = true := h
  cases flag with
  | false =>
    have hdata : (jsonMsgFor { Text := T, IsPartialFlag := false }).toList =
        "\x7b\"text\":\"".toList ++ (T.toList ++ ('"' ::
          (",\"partial\":".toList ++ "false\x7d".toList))) := by
      simp only [jsonMsgFor, if_neg Bool.false_ne_true, String.toList,
        String.data_append, List.append_assoc]
      rfl
    have h1 : stripExpected ("true\x7d".toList) ("false\x7d".toList) =
        none := by decide
    have h2 : stripExpected ("false\x7d".toList) ("false\x7d".toList) =
        some [] := by decide
    simp only [parseFrame, hdata, stripExpected_self,
      scanJsonString_plain _ _ h', h1, h2]
    cases T
    rfl
  | true =>
    have hdata : (jsonMsgFor { Text := T, IsPartialFlag := true }).toList =
        "\x7b\"text\":\"".toList ++ (T.toList ++ ('"' ::
          (",\"partial\":".toList ++ "true\x7d".toList))) := by
      simp only [jsonMsgFor, if_pos rfl, String.toList,
        String.data_append, List.append_assoc]
      rfl
    have h1 : stripExpected ("true\x7d".toList) ("true\x7d".toList) =
        some [] := by decide
    simp only [parseFrame, hdata, stripExpected_self,
      scanJsonString_plain _ _ h', h1]
    cases T
    rfl

/-- Witness for C9's amended theorem at a concrete piece with plain
text. -/
theorem writer_frame_round_trips_witness :
    parseFrame (jsonMsgFor { Text := "hello", IsPartialFlag := false }) =
      some ("hello", false) :=
  writer_frame_round_trips { Text := "hello", IsPartialFlag := false }
    (by decide)

/-- Counterexample to C9 as stated: for the piece whose text is a single
double-quote character the writer's frame is not a serialization of the
two-field object at all (the interpolated quote terminates the text
field early), so the parser of the two-field format rejects it instead
of recovering the piece's fields. -/
theorem writer_frame_breaks_on_quote :
    parseFrame (jsonMsgFor { Text := "\"", IsPartialFlag := true }) = none ∧
    parseFrame (jsonMsgFor { Text := "\"", IsPartialFlag := true }) ≠
      some ("\"", true) := by
  decide

end GoChannels
